import Mathlib

/-!
# Verification of the economoney balance-accrual and reporting engine

Shallow embedding of `src/app.py`. The persistent store (SQLAlchemy tables
`expenses` and `balances`) is modelled as two lists of rows in insertion
order; SQL queries are modelled as list operations:

* `SELECT ... filter_by(...)` + `.first()` / `.scalar()`  → `List.find?`;
* `ORDER BY date DESC LIMIT 1`                            → a max-by-date scan;
* `UPDATE ... WHERE user_id = u AND date = today`         → `List.map` over rows;
* `GROUP BY k` + `SUM`                                    → the distinct keys
  (`List.dedup`, first-occurrence order) paired with the per-key filtered sum.

Python `date` values are modelled as integer day numbers (`Int`), so that
`timedelta` arithmetic and day differences are plain integer arithmetic;
`date.today()` appearing inside each Python function becomes an explicit
`today` argument. Monetary amounts (Python floats holding decimal inputs)
are modelled as exact rationals `ℚ`. The surrogate `id` primary-key columns
are omitted: no query in the source reads them.
-/

/-- A row of the `expenses` table (an ExpenseRecord). -/
structure Expense where
  user_id : Int
  amount : ℚ
  date : Int
  category : Option String
deriving DecidableEq

/-- A row of the `balances` table (a BalanceSnapshot). -/
structure Balance where
  user_id : Int
  date : Int
  balance : ℚ
deriving DecidableEq

/-- The whole persistent store: both tables, rows in insertion order. -/
structure Store where
  expenses : List Expense
  balances : List Balance
deriving DecidableEq

/-- `DAILY_LIMIT = 2000` from the configuration section. -/
def DAILY_LIMIT : ℚ := 2000

/-- The row predicate `Balance.user_id == u AND Balance.date == today`. -/
def isToday (u today : Int) (b : Balance) : Bool :=
  b.user_id == u && b.date == today

/-- `select(Balance).filter_by(user_id=user_id, date=today)` then `.first()`. -/
def findBalanceToday (s : Store) (u today : Int) : Option Balance :=
  s.balances.find? (isToday u today)

/-- All `balances` rows of one user, in store order
(`select(Balance).filter(Balance.user_id == user_id)`). -/
def userBalances (s : Store) (u : Int) : List Balance :=
  s.balances.filter (fun b => b.user_id == u)

/-- Deterministic model of `ORDER BY date DESC LIMIT 1`: the first row (in
store order) carrying the maximal date. -/
def maxByDate : List Balance → Option Balance
  | [] => none
  | b :: rest =>
    match maxByDate rest with
    | none => some b
    | some m => if m.date > b.date then some m else some b

/-- `select(Balance).filter(user_id).order_by(date.desc()).limit(1)` then
`.first()`: the user's latest snapshot. -/
def latestBalance (s : Store) (u : Int) : Option Balance :=
  maxByDate (userBalances s u)

/-- `get_balance` (the Accrual Engine, `resolveBalance` of the spec): returns
the resolved balance for `today` together with the store after any snapshot
materialization it performs. -/
def get_balance (s : Store) (u today : Int) : ℚ × Store :=
  match findBalanceToday s u today with
  | some balance_today => (balance_today.balance, s)
  | none =>
    match latestBalance s u with
    | none =>
      -- no history at all: bootstrap with DAILY_LIMIT
      (DAILY_LIMIT, ⟨s.expenses, s.balances ++ [⟨u, today, DAILY_LIMIT⟩]⟩)
    | some last_balance =>
      let days_passed : Int := today - last_balance.date
      if days_passed ≤ 0 then
        (last_balance.balance, s)
      else
        let new_balance_value :=
          last_balance.balance + (days_passed : ℚ) * DAILY_LIMIT
        (new_balance_value,
          ⟨s.expenses, s.balances ++ [⟨u, today, new_balance_value⟩]⟩)

/-- `update_balance`: `UPDATE balances SET balance = new_balance
WHERE user_id = u AND date = today`. -/
def update_balance (s : Store) (u today : Int) (new_balance : ℚ) : Store :=
  ⟨s.expenses,
    s.balances.map (fun b =>
      if isToday u today b then ⟨b.user_id, b.date, new_balance⟩ else b)⟩

/-- `add_expense` (`postExpense` of the spec): resolve the balance, append the
expense row, update today's snapshot in place. -/
def add_expense (s : Store) (u today : Int) (amount : ℚ) (category : String) :
    ℚ × Store :=
  let r := get_balance s u today
  let new_balance := r.1 - amount
  let s2 : Store := ⟨r.2.expenses ++ [⟨u, amount, today, some category⟩], r.2.balances⟩
  (new_balance, update_balance s2 u today new_balance)

/-- `add_to_budget` (`adjustBudget` of the spec): resolve the balance, add the
(possibly negative) delta, update today's snapshot in place. -/
def add_to_budget (s : Store) (u today : Int) (amount : ℚ) : ℚ × Store :=
  let r := get_balance s u today
  let new_balance := r.1 + amount
  (new_balance, update_balance r.2 u today new_balance)

/-- The `(user, today)` snapshot rows of a store. -/
def todayRows (s : Store) (u today : Int) : List Balance :=
  s.balances.filter (isToday u today)

/-- The non-persisting balance fallback of the day-report branch of
`stats_callback` (`getDayBalanceWithFallback` of the spec): today's snapshot
if present, else the caught-up value from the latest snapshot (or
`DAILY_LIMIT` with no history) minus today's expense sum (`scalar() or 0`).
It performs no store write, hence returns the store unchanged. -/
def day_balance_fallback (s : Store) (u today : Int) : ℚ × Store :=
  match findBalanceToday s u today with
  | some balance_today => (balance_today.balance, s)
  | none =>
    let restored_balance : ℚ :=
      match latestBalance s u with
      | some lb => lb.balance + ((today - lb.date : Int) : ℚ) * DAILY_LIMIT
      | none => DAILY_LIMIT
    let spent_today :=
      ((s.expenses.filter (fun e => e.user_id == u && e.date == today)).map
        (fun e => e.amount)).sum
    (restored_balance - spent_today, s)

/-- Sum of the `amount` column of a list of expense rows. -/
def sum_amounts (l : List Expense) : ℚ := (l.map (fun e => e.amount)).sum

/-- The query body of `get_stats`: expenses of `u` with `date >= start_date`,
grouped by `category` with summed amounts. `GROUP BY` is modelled as the
distinct categories (first-occurrence order) paired with each one's summed
filtered amounts. -/
def stats_query (s : Store) (u start_date : Int) : List (Option String × ℚ) :=
  let l := s.expenses.filter (fun e => e.user_id == u && decide (start_date ≤ e.date))
  ((l.map (fun e => e.category)).dedup).map
    (fun c => (c, sum_amounts (l.filter (fun e => decide (e.category = c)))))

/-- `get_stats` (`getPeriodTotals` of the spec). The `month` branch of the
source (`today.replace(day=1)`) needs calendar-month structure that the
integer day-number date model does not carry; no claim exercises it, so the
final `else` branch (which the source also uses for unknown periods) stands
for every non-day, non-week period. -/
def get_stats (s : Store) (u today : Int) (period : String) :
    List (Option String × ℚ) :=
  stats_query s u
    (if period = "day" then today else if period = "week" then today - 7 else today)

/-- The display key `cat or "Без категории"` used when building the weekly
per-day dictionaries: Python `or` replaces both `None` and the falsy empty
string. -/
def display_cat : Option String → String
  | none => "Без категории"
  | some c => if c = "" then "Без категории" else c

/-- Python dict assignment `m[k] = v`: overwrite if the key is present,
append otherwise. -/
def set_key (m : List (String × ℚ)) (k : String) (v : ℚ) : List (String × ℚ) :=
  if m.any (fun p => p.1 == k) then m.map (fun p => if p.1 == k then (k, v) else p)
  else m ++ [(k, v)]

/-- Build a Python dict by consecutive assignments. -/
def build_dict (rows : List (String × ℚ)) : List (String × ℚ) :=
  rows.foldl (fun m r => set_key m r.1 r.2) []

/-- The inner dictionary `daily_stats[d]` of `get_weekly_stats`: the rows of
the `(date, category)` grouped query that carry date `d`, written into a dict
keyed by the displayed category. (The source builds all the per-day dicts in
one pass over the grouped rows; since every row lands in the dict of its own
date, the per-day dicts can be built day by day.) -/
def day_table (l : List Expense) (d : Int) : List (String × ℚ) :=
  let dayRows := l.filter (fun e => decide (e.date = d))
  build_dict
    (((dayRows.map (fun e => e.category)).dedup).map
      (fun c =>
        (display_cat c, sum_amounts (dayRows.filter (fun e => decide (e.category = c))))))

/-- Result of `get_weekly_stats`: the per-day per-category dicts, the
`{date: balance}` dict rows (in query order, later rows overwriting earlier
ones on lookup), and the grand total. -/
structure WeeklyStats where
  daily_stats : List (Int × List (String × ℚ))
  balances : List (Int × ℚ)
  total_sum : ℚ
deriving DecidableEq

/-- `get_weekly_stats` (`getWeeklyBreakdown` of the spec). Pure read: the
store is returned unchanged. -/
def get_weekly_stats (s : Store) (u today : Int) : WeeklyStats × Store :=
  let start_date := today - 6
  let l := s.expenses.filter (fun e => e.user_id == u && decide (start_date ≤ e.date))
  let daily_stats := ((l.map (fun e => e.date)).dedup).map (fun d => (d, day_table l d))
  let bal_rows :=
    (s.balances.filter (fun b => b.user_id == u && decide (start_date ≤ b.date))).map
      (fun b => (b.date, b.balance))
  let total_sum := (daily_stats.map (fun p => (p.2.map (fun q => q.2)).sum)).sum
  (⟨daily_stats, bal_rows, total_sum⟩, s)

/-- Lookup in a `{date: balance}` dict comprehension: the last pair with the
given key wins, absence gives `none`. -/
def dict_lookup (ps : List (Int × ℚ)) (d : Int) : Option ℚ :=
  ((ps.filter (fun p => p.1 == d)).getLast?).map (fun p => p.2)

/-- `pending_expenses.pop(user_id, None)`: look the user up in the pending
dict, removing the entry when present. -/
def pop_pending (pending : List (Int × ℚ)) (u : Int) :
    Option ℚ × List (Int × ℚ) :=
  match pending.find? (fun p => p.1 == u) with
  | none => (none, pending)
  | some p => (some p.2, pending.filter (fun q => !(q.1 == u)))

/-- `handle_category`: pop the pending amount; with none pending, alert
("Нет ожидающей суммы") and return without touching the store (third
component `none`); otherwise post the expense and report the new balance. -/
def handle_category (pending : List (Int × ℚ)) (s : Store) (u today : Int)
    (category : String) : List (Int × ℚ) × Store × Option ℚ :=
  match pop_pending pending u with
  | (none, p2) => (p2, s, none)
  | (some amount, p2) =>
    let r := add_expense s u today amount category
    (p2, r.2, some r.1)

/-- The regex `^-?\d+(\.\d+)?$` guarding `handle_amount`: an optional minus
sign, a nonempty digit run, and an optional dot followed by a nonempty digit
run. -/
def matches_amount (cs : List Char) : Bool :=
  let cs1 :=
    match cs with
    | c :: t => if c = '-' then t else c :: t
    | [] => []
  let intPart := cs1.takeWhile Char.isDigit
  let rest := cs1.dropWhile Char.isDigit
  decide (intPart ≠ []) &&
    (match rest with
     | [] => true
     | c :: frac => c == '.' && decide (frac ≠ []) && frac.all Char.isDigit)

/-- Digit run to a natural number, most significant first. -/
def digitsToNat (ds : List Char) : Nat :=
  ds.foldl (fun n c => 10 * n + (c.toNat - '0'.toNat)) 0

/-- `float(text)` on a string accepted by `matches_amount`: the signed value
of the integer part plus the fractional part. -/
def parse_amount (cs : List Char) : ℚ :=
  let neg_cs1 :=
    match cs with
    | c :: t => if c = '-' then (true, t) else (false, c :: t)
    | [] => (false, [])
  let intPart := neg_cs1.2.takeWhile Char.isDigit
  let rest := neg_cs1.2.dropWhile Char.isDigit
  let mag : ℚ :=
    (digitsToNat intPart : ℚ) +
      (match rest with
       | _ :: frac => (digitsToNat frac : ℚ) / ((10 : ℚ) ^ frac.length)
       | [] => 0)
  if neg_cs1.1 then -mag else mag

/-- `awaiting_budget_add.remove(user_id)` on the model of the set as a list. -/
def remove_awaiting (awaiting : List Int) (u : Int) : List Int :=
  awaiting.filter (fun x => !(x == u))

/-- Python dict assignment `pending_expenses[user_id] = amount`. -/
def set_pending (pending : List (Int × ℚ)) (u : Int) (a : ℚ) :
    List (Int × ℚ) :=
  if pending.any (fun p => p.1 == u) then
    pending.map (fun p => if p.1 == u then (u, a) else p)
  else pending ++ [(u, a)]

/-- `handle_amount`: `none` when the message does not match the numeric
regex (the handler is not invoked); otherwise the new
`(awaiting, pending, store, reported budget balance)` state — a budget
adjustment when the user is awaited, else the amount is recorded as the
user's pending expense. -/
def handle_amount (awaiting : List Int) (pending : List (Int × ℚ)) (s : Store)
    (u today : Int) (text : List Char) :
    Option (List Int × List (Int × ℚ) × Store × Option ℚ) :=
  if matches_amount text then
    let amount := parse_amount text
    if awaiting.contains u then
      let r := add_to_budget s u today amount
      some (remove_awaiting awaiting u, pending, r.2, some r.1)
    else
      some (awaiting, set_pending pending u amount, s, none)
  else none

/-- A category value that survives the display mapping `cat or
"Без категории"` unchanged: not NULL, not empty, not the literal fallback
label. All categories produced by the bot's own keyboard are of this shape. -/
def GoodCat (c : Option String) : Prop :=
  c ≠ none ∧ c ≠ some "" ∧ c ≠ some "Без категории"

instance (c : Option String) : Decidable (GoodCat c) := by
  unfold GoodCat
  infer_instance

-- ---------------------------------------------------------------------------
-- Basic list lemmas used throughout
-- ---------------------------------------------------------------------------

theorem find?_append_none {α : Type} (p : α → Bool) (l₁ l₂ : List α)
    (h : l₁.find? p = none) : (l₁ ++ l₂).find? p = l₂.find? p := by
  rw [List.find?_append, h, Option.none_or]

theorem maxByDate_cons (b : Balance) (t : List Balance) :
    maxByDate (b :: t) =
      match maxByDate t with
      | none => some b
      | some m => if m.date > b.date then some m else some b := rfl

theorem maxByDate_eq_none {l : List Balance} :
    maxByDate l = none ↔ l = [] := by
  cases l with
  | nil => simp [maxByDate]
  | cons a t =>
    rw [maxByDate_cons]
    rcases hmt : maxByDate t with _ | m
    · simp
    · simp only []
      constructor
      · intro h
        by_cases hgt : m.date > a.date <;> simp [hgt] at h
      · intro h; cases h

theorem mem_of_maxByDate :
    ∀ {l : List Balance} {m : Balance}, maxByDate l = some m →
      m ∈ l ∧ ∀ b ∈ l, b.date ≤ m.date := by
  intro l
  induction l with
  | nil => intro m h; simp [maxByDate] at h
  | cons a t ih =>
    intro m h
    rw [maxByDate_cons] at h
    rcases hmt : maxByDate t with _ | m'
    · rw [hmt] at h
      simp only [] at h
      injection h with h
      subst h
      have ht : t = [] := maxByDate_eq_none.mp hmt
      subst ht
      simp
    · rw [hmt] at h
      simp only [] at h
      rcases ih hmt with ⟨hmem, hmax⟩
      by_cases hgt : m'.date > a.date
      · rw [if_pos hgt] at h
        injection h with h
        subst h
        refine ⟨List.mem_cons_of_mem _ hmem, ?_⟩
        intro b hb
        rcases List.mem_cons.mp hb with hb | hb
        · subst hb; omega
        · exact hmax b hb
      · rw [if_neg hgt] at h
        injection h with h
        subst h
        refine ⟨List.mem_cons_self _ _, ?_⟩
        intro b hb
        rcases List.mem_cons.mp hb with hb | hb
        · subst hb; omega
        · have := hmax b hb; omega

theorem isToday_set (u today : Int) (nb : ℚ) (b : Balance) :
    isToday u today ⟨b.user_id, b.date, nb⟩ = isToday u today b := rfl

theorem filter_update (l : List Balance) (u today : Int) (nb : ℚ) :
    (l.map (fun b =>
        if isToday u today b then ⟨b.user_id, b.date, nb⟩ else b)).filter
      (isToday u today) =
      (l.filter (isToday u today)).map
        (fun b => (⟨b.user_id, b.date, nb⟩ : Balance)) := by
  induction l with
  | nil => rfl
  | cons a t ih => by_cases h : isToday u today a <;> simp [h, isToday_set, ih]

theorem filter_update_not (l : List Balance) (u today : Int) (nb : ℚ) :
    (l.map (fun b =>
        if isToday u today b then ⟨b.user_id, b.date, nb⟩ else b)).filter
      (fun b => !(isToday u today b)) =
      l.filter (fun b => !(isToday u today b)) := by
  induction l with
  | nil => rfl
  | cons a t ih => by_cases h : isToday u today a <;> simp [h, isToday_set, ih]

theorem update_balance_dates (s : Store) (u today : Int) (nb : ℚ) :
    ∀ b' ∈ (update_balance s u today nb).balances,
      ∃ b ∈ s.balances, b'.user_id = b.user_id ∧ b'.date = b.date := by
  intro b' hb'
  rcases List.mem_map.mp hb' with ⟨b, hb, he⟩
  by_cases h : isToday u today b
  · rw [if_pos h] at he
    subst he
    exact ⟨b, hb, rfl, rfl⟩
  · rw [if_neg h] at he
    subst he
    exact ⟨b, hb, rfl, rfl⟩

theorem get_balance_of_todayRows (s : Store) (u today : Int) (v : ℚ)
    (h : todayRows s u today = [⟨u, today, v⟩]) :
    get_balance s u today = (v, s) := by
  have hf : findBalanceToday s u today = some ⟨u, today, v⟩ := by
    have h1 : (todayRows s u today).head? = some ⟨u, today, v⟩ := by rw [h]; rfl
    rw [findBalanceToday, ← List.filter_head?]
    exact h1
  rw [get_balance, hf]

/-- Core lemma about the Accrual Engine: on a store whose `(u, ·)` snapshots
are all dated at most `today` and which has at most one `(u, today)` row,
`get_balance` leaves the expenses table untouched, leaves exactly one
`(u, today)` snapshot row holding the returned value, leaves every other
snapshot row unchanged, and preserves both store invariants. -/
theorem get_balance_materializes (s : Store) (u today : Int)
    (hP : ∀ b ∈ s.balances, b.user_id = u → b.date ≤ today)
    (hU : (todayRows s u today).length ≤ 1) :
    (get_balance s u today).2.expenses = s.expenses ∧
    todayRows (get_balance s u today).2 u today =
      [⟨u, today, (get_balance s u today).1⟩] ∧
    (get_balance s u today).2.balances.filter (fun b => !(isToday u today b)) =
      s.balances.filter (fun b => !(isToday u today b)) ∧
    (∀ b ∈ (get_balance s u today).2.balances, b.user_id = u → b.date ≤ today) := by
  rcases hf : findBalanceToday s u today with _ | bt
  · have hemp : todayRows s u today = [] := by
      rw [todayRows, List.filter_eq_nil_iff]
      exact List.find?_eq_none.mp hf
    have hemp' : s.balances.filter (isToday u today) = [] := hemp
    rcases hl : latestBalance s u with _ | lb
    · have heq : get_balance s u today =
          (DAILY_LIMIT, ⟨s.expenses, s.balances ++ [⟨u, today, DAILY_LIMIT⟩]⟩) := by
        rw [get_balance, hf, hl]
      rw [heq]
      refine ⟨rfl, ?_, ?_, ?_⟩
      · show (s.balances ++ [(⟨u, today, DAILY_LIMIT⟩ : Balance)]).filter (isToday u today) = _
        rw [List.filter_append, hemp']
        simp [isToday]
      · show (s.balances ++ [(⟨u, today, DAILY_LIMIT⟩ : Balance)]).filter _ = _
        rw [List.filter_append]
        simp [isToday]
      · intro b hb
        rcases List.mem_append.mp hb with hb | hb
        · exact hP b hb
        · intro _
          simp at hb
          rw [hb]
    · by_cases hd : today - lb.date ≤ 0
      · exfalso
        rcases mem_of_maxByDate hl with ⟨hmem, _⟩
        rcases List.mem_filter.mp hmem with ⟨hmem', hu⟩
        have hu' : lb.user_id = u := by simpa using hu
        have hle : lb.date ≤ today := hP lb hmem' hu'
        have hdt : lb.date = today := by omega
        have : lb ∈ todayRows s u today :=
          List.mem_filter.mpr ⟨hmem', by simp [isToday, hu', hdt]⟩
        rw [hemp] at this
        simp at this
      · have heq : get_balance s u today =
            (lb.balance + ((today - lb.date : Int) : ℚ) * DAILY_LIMIT,
              ⟨s.expenses, s.balances ++
                [⟨u, today,
                  lb.balance + ((today - lb.date : Int) : ℚ) * DAILY_LIMIT⟩]⟩) := by
          rw [get_balance, hf, hl]
          simp only []
          rw [if_neg hd]
        rw [heq]
        refine ⟨rfl, ?_, ?_, ?_⟩
        · show (s.balances ++ _).filter (isToday u today) = _
          rw [List.filter_append, hemp']
          simp [isToday]
        · show (s.balances ++ _).filter _ = _
          rw [List.filter_append]
          simp [isToday]
        · intro b hb
          rcases List.mem_append.mp hb with hb | hb
          · exact hP b hb
          · intro _
            simp at hb
            rw [hb]
  · have heq : get_balance s u today = (bt.balance, s) := by rw [get_balance, hf]
    have hmem : bt ∈ s.balances := List.mem_of_find?_eq_some hf
    have hp : isToday u today bt = true := List.find?_some hf
    have hone : todayRows s u today = [bt] := by
      have h1 : (todayRows s u today).head? = some bt := by
        rw [todayRows, List.filter_head?]
        exact hf
      cases hrows : todayRows s u today with
      | nil => rw [hrows] at h1; cases h1
      | cons x t =>
        rw [hrows] at h1 hU
        have hx : x = bt := by simpa using h1
        have ht : t = [] := by
          simp only [List.length_cons] at hU
          exact List.eq_nil_of_length_eq_zero (by omega)
        rw [hx, ht]
    have hbt : bt = ⟨u, today, bt.balance⟩ := by
      rcases bt with ⟨bu, bd, bb⟩
      simp only [isToday, Bool.and_eq_true, beq_iff_eq] at hp
      rcases hp with ⟨h1, h2⟩
      rw [h1, h2]
    refine ⟨by rw [heq], ?_, by rw [heq], by rw [heq]; exact hP⟩
    rw [heq]
    show todayRows s u today = _
    rw [hone, ← hbt]

/-- `update_balance` keeps the expenses table, rewrites exactly the
`(u, today)` rows to the new value, and leaves every other row unchanged. -/
theorem update_balance_spec (s : Store) (u today : Int) (nb : ℚ) :
    (update_balance s u today nb).expenses = s.expenses ∧
    todayRows (update_balance s u today nb) u today =
      (todayRows s u today).map (fun b => (⟨b.user_id, b.date, nb⟩ : Balance)) ∧
    (update_balance s u today nb).balances.filter (fun b => !(isToday u today b)) =
      s.balances.filter (fun b => !(isToday u today b)) :=
  ⟨rfl, filter_update s.balances u today nb, filter_update_not s.balances u today nb⟩

/-- Composite behaviour of one `add_expense` call on an invariant-satisfying
store: returned value, expense append, the unique updated `(u, today)`
snapshot, frame on other snapshot rows, and preservation of the invariants. -/
theorem add_expense_spec (s : Store) (u today : Int) (a : ℚ) (c : String)
    (hP : ∀ b ∈ s.balances, b.user_id = u → b.date ≤ today)
    (hU : (todayRows s u today).length ≤ 1) :
    (add_expense s u today a c).1 = (get_balance s u today).1 - a ∧
    (add_expense s u today a c).2.expenses =
      s.expenses ++ [⟨u, a, today, some c⟩] ∧
    todayRows (add_expense s u today a c).2 u today =
      [⟨u, today, (get_balance s u today).1 - a⟩] ∧
    (add_expense s u today a c).2.balances.filter (fun b => !(isToday u today b)) =
      s.balances.filter (fun b => !(isToday u today b)) ∧
    (∀ b ∈ (add_expense s u today a c).2.balances, b.user_id = u → b.date ≤ today) ∧
    (todayRows (add_expense s u today a c).2 u today).length ≤ 1 := by
  obtain ⟨g1, g2, g3, g4⟩ := get_balance_materializes s u today hP hU
  set r := get_balance s u today with hr
  have hmid : todayRows ⟨r.2.expenses ++ [⟨u, a, today, some c⟩], r.2.balances⟩ u today
      = todayRows r.2 u today := rfl
  have h2 : todayRows (add_expense s u today a c).2 u today =
      [⟨u, today, r.1 - a⟩] := by
    show todayRows (update_balance _ u today (r.1 - a)) u today = _
    rw [(update_balance_spec _ u today (r.1 - a)).2.1, hmid, g2]
    rfl
  refine ⟨rfl, ?_, h2, ?_, ?_, by rw [h2]; simp⟩
  · show (update_balance _ u today (r.1 - a)).expenses = _
    rw [(update_balance_spec _ u today (r.1 - a)).1]
    show r.2.expenses ++ _ = _
    rw [g1]
  · show (update_balance _ u today (r.1 - a)).balances.filter _ = _
    rw [(update_balance_spec _ u today (r.1 - a)).2.2]
    exact g3
  · intro b hb hbu
    rcases update_balance_dates _ u today (r.1 - a) b hb with ⟨b0, hb0, he1, he2⟩
    rw [he2]
    exact g4 b0 hb0 (by rw [← he1, hbu])

-- ---------------------------------------------------------------------------
-- C1: accrual on a day with no snapshot
-- ---------------------------------------------------------------------------

/-- C1: For every user and day `today` with no BalanceSnapshot for
`(user, today)`: if the user has no snapshot at all, `get_balance` returns
exactly `DAILY_LIMIT` and appends exactly one new snapshot row for `today`;
if the user's latest snapshot is `lb` with `today - lb.date = k ≥ 1`, it
returns `lb.balance + k * DAILY_LIMIT` and appends exactly one new snapshot
row for `today` (no rows for intermediate days), leaving the expenses table
untouched. -/
theorem c1_accrual (s : Store) (u today : Int)
    (h0 : findBalanceToday s u today = none) :
    (latestBalance s u = none →
      get_balance s u today =
        (DAILY_LIMIT, ⟨s.expenses, s.balances ++ [⟨u, today, DAILY_LIMIT⟩]⟩)) ∧
    (∀ lb : Balance, latestBalance s u = some lb → 1 ≤ today - lb.date →
      get_balance s u today =
        (lb.balance + ((today - lb.date : Int) : ℚ) * DAILY_LIMIT,
          ⟨s.expenses, s.balances ++
            [⟨u, today, lb.balance + ((today - lb.date : Int) : ℚ) * DAILY_LIMIT⟩]⟩)) := by
  constructor
  · intro h1
    rw [get_balance, h0, h1]
  · intro lb h1 hk
    rw [get_balance, h0, h1]
    simp only
    rw [if_neg (by omega)]

/-- Witness for C1: a user whose only snapshot is `(date 5, 300)`, resolved on
day 8: result `300 + 3 * 2000 = 6300`, one new snapshot appended. -/
theorem c1_accrual_witness :
    get_balance ⟨[], [⟨1, 5, 300⟩]⟩ 1 8 =
      ((300 : ℚ) + ((8 - 5 : Int) : ℚ) * DAILY_LIMIT,
        ⟨[], [⟨1, 5, 300⟩] ++ [⟨1, 8, (300 : ℚ) + ((8 - 5 : Int) : ℚ) * DAILY_LIMIT⟩]⟩) :=
  (c1_accrual ⟨[], [⟨1, 5, 300⟩]⟩ 1 8 (by decide)).2 ⟨1, 5, 300⟩ (by decide) (by decide)

-- ---------------------------------------------------------------------------
-- C2: two expense posts on the same day
-- ---------------------------------------------------------------------------

/-- C2: For every user whose resolved balance before is `b0` on a given day
(on a store satisfying the reachability invariants: the user's snapshots are
dated at most `today`, at most one `(u, today)` snapshot exists, and the user
has no `(u, today)` expense rows yet), posting expense `a1` then expense `a2`
leaves a final resolved balance of exactly `b0 - a1 - a2`, exactly two
`(u, today)` ExpenseRecord rows, and exactly one `(u, today)` BalanceSnapshot
row holding that final value. -/
theorem c2_two_posts (s : Store) (u today : Int) (a1 a2 : ℚ) (cat1 cat2 : String)
    (hP : ∀ b ∈ s.balances, b.user_id = u → b.date ≤ today)
    (hU : (todayRows s u today).length ≤ 1)
    (hE : ∀ e ∈ s.expenses, e.user_id = u → e.date ≠ today) :
    (get_balance (add_expense (add_expense s u today a1 cat1).2 u today a2 cat2).2 u today).1
      = (get_balance s u today).1 - a1 - a2 ∧
    (add_expense (add_expense s u today a1 cat1).2 u today a2 cat2).2.expenses.filter
        (fun e => e.user_id == u && e.date == today)
      = [⟨u, a1, today, some cat1⟩, ⟨u, a2, today, some cat2⟩] ∧
    todayRows (add_expense (add_expense s u today a1 cat1).2 u today a2 cat2).2 u today
      = [⟨u, today, (get_balance s u today).1 - a1 - a2⟩] := by
  obtain ⟨A1, A2, A3, A4, A5, A6⟩ := add_expense_spec s u today a1 cat1 hP hU
  have hgb1 : get_balance (add_expense s u today a1 cat1).2 u today =
      ((get_balance s u today).1 - a1, (add_expense s u today a1 cat1).2) :=
    get_balance_of_todayRows _ u today _ A3
  obtain ⟨B1, B2, B3, B4, B5, B6⟩ :=
    add_expense_spec (add_expense s u today a1 cat1).2 u today a2 cat2 A5 A6
  have hval : (get_balance (add_expense s u today a1 cat1).2 u today).1 =
      (get_balance s u today).1 - a1 := by rw [hgb1]
  rw [hval] at B3
  refine ⟨?_, ?_, B3⟩
  · rw [get_balance_of_todayRows _ u today _ B3]
  · rw [B2, A2]
    have he : s.expenses.filter (fun e => e.user_id == u && e.date == today) = [] := by
      rw [List.filter_eq_nil_iff]
      intro e hemem hp
      simp only [Bool.and_eq_true, beq_iff_eq] at hp
      exact hE e hemem hp.1 hp.2
    simp [List.filter_append, he]

/-- Witness for C2: both expenses posted on day 0 into an empty store. -/
theorem c2_two_posts_witness :
    (get_balance (add_expense (add_expense ⟨[], []⟩ 1 0 100 "Продукты").2 1 0 50 "Прочее").2 1 0).1
      = (get_balance (⟨[], []⟩ : Store) 1 0).1 - 100 - 50 ∧
    (add_expense (add_expense ⟨[], []⟩ 1 0 100 "Продукты").2 1 0 50 "Прочее").2.expenses.filter
        (fun e => e.user_id == 1 && e.date == 0)
      = [⟨1, 100, 0, some "Продукты"⟩, ⟨1, 50, 0, some "Прочее"⟩] ∧
    todayRows (add_expense (add_expense ⟨[], []⟩ 1 0 100 "Продукты").2 1 0 50 "Прочее").2 1 0
      = [⟨1, 0, (get_balance (⟨[], []⟩ : Store) 1 0).1 - 100 - 50⟩] :=
  c2_two_posts ⟨[], []⟩ 1 0 100 50 "Продукты" "Прочее" (by decide) (by decide) (by decide)

-- ---------------------------------------------------------------------------
-- C5: the in-place update targets exactly one existing row
-- ---------------------------------------------------------------------------

/-- C5: For every `add_expense` and `add_to_budget` invocation on a store
satisfying the reachability invariants, at the moment `update_balance`
executes, a `(u, today)` snapshot row already exists (the Accrual Engine ran
first), and the update rewrites exactly that one row — one row affected,
never zero — leaving all other rows unchanged. Both operations invoke
`update_balance` on a store whose `balances` are exactly
`(get_balance s u today).2.balances` (`add_expense` has only appended an
expense row in between). -/
theorem c5_update_one_row (s : Store) (u today : Int) (nb : ℚ)
    (hP : ∀ b ∈ s.balances, b.user_id = u → b.date ≤ today)
    (hU : (todayRows s u today).length ≤ 1) :
    todayRows (get_balance s u today).2 u today
      = [⟨u, today, (get_balance s u today).1⟩] ∧
    todayRows (update_balance (get_balance s u today).2 u today nb) u today
      = [⟨u, today, nb⟩] ∧
    (update_balance (get_balance s u today).2 u today nb).balances.filter
        (fun b => !(isToday u today b))
      = (get_balance s u today).2.balances.filter (fun b => !(isToday u today b)) := by
  obtain ⟨g1, g2, g3, g4⟩ := get_balance_materializes s u today hP hU
  refine ⟨g2, ?_, (update_balance_spec _ u today nb).2.2⟩
  rw [(update_balance_spec _ u today nb).2.1, g2]
  rfl

/-- Witness for C5: empty store, user 1, day 0, update value 5. -/
theorem c5_update_one_row_witness :
    todayRows (get_balance ⟨[], []⟩ 1 0).2 1 0
      = [⟨1, 0, (get_balance (⟨[], []⟩ : Store) 1 0).1⟩] ∧
    todayRows (update_balance (get_balance ⟨[], []⟩ 1 0).2 1 0 5) 1 0
      = [⟨1, 0, 5⟩] ∧
    (update_balance (get_balance ⟨[], []⟩ 1 0).2 1 0 5).balances.filter
        (fun b => !(isToday 1 0 b))
      = (get_balance ⟨[], []⟩ 1 0).2.balances.filter (fun b => !(isToday 1 0 b)) :=
  c5_update_one_row ⟨[], []⟩ 1 0 5 (by decide) (by decide)

-- ---------------------------------------------------------------------------
-- C6: idempotence of resolveBalance; days_passed <= 0 edge case
-- ---------------------------------------------------------------------------

/-- C6: For every user and store, calling `get_balance` twice in the same day
with no intervening writes returns the same value both times and leaves the
store of the first call unchanged (no additional snapshot); and whenever no
`(u, today)` snapshot exists but the latest found snapshot `lb` gives
`days_passed = today - lb.date ≤ 0`, `get_balance` returns that found value
and writes nothing — never regressing or duplicating a day's snapshot. -/
theorem c6_idempotent :
    (∀ (s : Store) (u today : Int),
      get_balance (get_balance s u today).2 u today =
        ((get_balance s u today).1, (get_balance s u today).2)) ∧
    (∀ (s : Store) (u today : Int) (lb : Balance),
      findBalanceToday s u today = none → latestBalance s u = some lb →
      today - lb.date ≤ 0 → get_balance s u today = (lb.balance, s)) := by
  constructor
  · intro s u today
    rcases hf : findBalanceToday s u today with _ | bt
    · have hemp : s.balances.filter (isToday u today) = [] := by
        rw [List.filter_eq_nil_iff]
        exact List.find?_eq_none.mp hf
      rcases hl : latestBalance s u with _ | lb
      · have heq : get_balance s u today =
            (DAILY_LIMIT, ⟨s.expenses, s.balances ++ [⟨u, today, DAILY_LIMIT⟩]⟩) := by
          rw [get_balance, hf, hl]
        rw [heq]
        apply get_balance_of_todayRows
        show (s.balances ++ [(⟨u, today, DAILY_LIMIT⟩ : Balance)]).filter (isToday u today) = _
        rw [List.filter_append, hemp]
        simp [isToday]
      · by_cases hd : today - lb.date ≤ 0
        · have heq : get_balance s u today = (lb.balance, s) := by
            rw [get_balance, hf, hl]
            simp only []
            rw [if_pos hd]
          rw [heq]
          exact heq
        · have heq : get_balance s u today =
              (lb.balance + ((today - lb.date : Int) : ℚ) * DAILY_LIMIT,
                ⟨s.expenses, s.balances ++
                  [⟨u, today,
                    lb.balance + ((today - lb.date : Int) : ℚ) * DAILY_LIMIT⟩]⟩) := by
            rw [get_balance, hf, hl]
            simp only []
            rw [if_neg hd]
          rw [heq]
          apply get_balance_of_todayRows
          show (s.balances ++
              [(⟨u, today, lb.balance + ((today - lb.date : Int) : ℚ) * DAILY_LIMIT⟩ :
                Balance)]).filter (isToday u today) = _
          rw [List.filter_append, hemp]
          simp [isToday]
    · have heq : get_balance s u today = (bt.balance, s) := by rw [get_balance, hf]
      rw [heq]
      exact heq
  · intro s u today lb h0 h1 hd
    rw [get_balance, h0, h1]
    simp only []
    rw [if_pos hd]

/-- Witness for C6: idempotence on an empty store; the no-write path on a
store whose latest snapshot (date 5) lies after `today = 3`. -/
theorem c6_idempotent_witness :
    get_balance (get_balance ⟨[], []⟩ 1 0).2 1 0 =
      ((get_balance (⟨[], []⟩ : Store) 1 0).1, (get_balance (⟨[], []⟩ : Store) 1 0).2) ∧
    get_balance ⟨[], [⟨1, 5, 700⟩]⟩ 1 3 = ((⟨1, 5, 700⟩ : Balance).balance, ⟨[], [⟨1, 5, 700⟩]⟩) :=
  ⟨c6_idempotent.1 ⟨[], []⟩ 1 0,
   c6_idempotent.2 ⟨[], [⟨1, 5, 700⟩]⟩ 1 3 ⟨1, 5, 700⟩ (by decide) (by decide) (by decide)⟩

-- ---------------------------------------------------------------------------
-- C7: adjustBudget is a pure snapshot-level adjustment
-- ---------------------------------------------------------------------------

/-- C7: For every user, day, and delta of either sign and any magnitude (on a
store satisfying the reachability invariants), `add_to_budget` returns
exactly the Accrual-Engine balance plus delta (no floor: the result may be
negative), rewrites today's unique snapshot in place to that value leaving
all other snapshot rows unchanged, and creates no ExpenseRecord — the
expenses table is identical before and after. -/
theorem c7_adjust_budget (s : Store) (u today : Int) (delta : ℚ)
    (hP : ∀ b ∈ s.balances, b.user_id = u → b.date ≤ today)
    (hU : (todayRows s u today).length ≤ 1) :
    (add_to_budget s u today delta).1 = (get_balance s u today).1 + delta ∧
    (add_to_budget s u today delta).2.expenses = s.expenses ∧
    todayRows (add_to_budget s u today delta).2 u today
      = [⟨u, today, (get_balance s u today).1 + delta⟩] ∧
    (add_to_budget s u today delta).2.balances.filter (fun b => !(isToday u today b))
      = s.balances.filter (fun b => !(isToday u today b)) := by
  obtain ⟨g1, g2, g3, g4⟩ := get_balance_materializes s u today hP hU
  refine ⟨rfl, ?_, ?_, ?_⟩
  · show (update_balance (get_balance s u today).2 u today _).expenses = _
    rw [(update_balance_spec _ u today _).1, g1]
  · show todayRows (update_balance (get_balance s u today).2 u today _) u today = _
    rw [(update_balance_spec _ u today _).2.1, g2]
    rfl
  · show (update_balance (get_balance s u today).2 u today _).balances.filter _ = _
    rw [(update_balance_spec _ u today _).2.2]
    exact g3

/-- Witness for C7: `adjustBudget(user, -2500)` on a fresh user whose balance
resolves to 2000: the result is `2000 + (-2500)`, i.e. negative — overdraft
is allowed and the expenses table stays empty. -/
theorem c7_adjust_budget_witness :
    (add_to_budget ⟨[], []⟩ 1 0 (-2500)).1 = (get_balance (⟨[], []⟩ : Store) 1 0).1 + (-2500) ∧
    (add_to_budget ⟨[], []⟩ 1 0 (-2500)).2.expenses = ([] : List Expense) ∧
    todayRows (add_to_budget ⟨[], []⟩ 1 0 (-2500)).2 1 0
      = [⟨1, 0, (get_balance (⟨[], []⟩ : Store) 1 0).1 + (-2500)⟩] ∧
    (add_to_budget ⟨[], []⟩ 1 0 (-2500)).2.balances.filter (fun b => !(isToday 1 0 b))
      = ([] : List Balance).filter (fun b => !(isToday 1 0 b)) :=
  c7_adjust_budget ⟨[], []⟩ 1 0 (-2500) (by decide) (by decide)

-- ---------------------------------------------------------------------------
-- C3: the non-persisting day-report fallback vs the Accrual Engine
-- ---------------------------------------------------------------------------

/-- C3 (counterexample): the fallback is NOT numerically identical to
`get_balance` on every store state. On a store holding one expense of 100 for
`(user 7, day 10)` but no snapshot at all, the fallback subtracts today's
spending (yielding 1900) while `get_balance` returns plain `DAILY_LIMIT =
2000`. -/
theorem c3_counterexample :
    ¬ ((day_balance_fallback ⟨[⟨7, 100, 10, some "x"⟩], []⟩ 7 10).1
        = (get_balance ⟨[⟨7, 100, 10, some "x"⟩], []⟩ 7 10).1) := by
  have h1 : (day_balance_fallback ⟨[⟨7, 100, 10, some "x"⟩], []⟩ 7 10).1
      = DAILY_LIMIT - (100 + 0) := rfl
  have h2 : (get_balance ⟨[⟨7, 100, 10, some "x"⟩], []⟩ 7 10).1 = DAILY_LIMIT := rfl
  rw [h1, h2, DAILY_LIMIT]
  norm_num

/-- C3 (amended): on stores where the user has no ExpenseRecord dated `today`
and no snapshot dated after `today` — both guaranteed in live operation,
since posting an expense first materializes today's snapshot and snapshots
are only ever created dated today — the non-persisting fallback of the day
report returns exactly the value `get_balance` would return on the same
store, and performs no store write. On other stores they differ
(`c3_counterexample`). -/
theorem c3_fallback_amended (s : Store) (u today : Int)
    (hP : ∀ b ∈ s.balances, b.user_id = u → b.date ≤ today)
    (hE : ∀ e ∈ s.expenses, e.user_id = u → e.date ≠ today) :
    (day_balance_fallback s u today).1 = (get_balance s u today).1 ∧
    (day_balance_fallback s u today).2 = s := by
  have hfil : s.expenses.filter (fun e => e.user_id == u && e.date == today) = [] := by
    rw [List.filter_eq_nil_iff]
    intro e hm hp
    simp only [Bool.and_eq_true, beq_iff_eq] at hp
    exact hE e hm hp.1 hp.2
  have hspent : ((s.expenses.filter (fun e => e.user_id == u && e.date == today)).map
      (fun e => e.amount)).sum = (0 : ℚ) := by rw [hfil]; rfl
  rcases hf : findBalanceToday s u today with _ | bt
  · have hemp : s.balances.filter (isToday u today) = [] := by
      rw [List.filter_eq_nil_iff]
      exact List.find?_eq_none.mp hf
    rcases hl : latestBalance s u with _ | lb
    · have h1 : day_balance_fallback s u today =
          (DAILY_LIMIT - ((s.expenses.filter (fun e => e.user_id == u && e.date == today)).map
            (fun e => e.amount)).sum, s) := by
        rw [day_balance_fallback, hf, hl]
      have h2 : get_balance s u today =
          (DAILY_LIMIT, ⟨s.expenses, s.balances ++ [⟨u, today, DAILY_LIMIT⟩]⟩) := by
        rw [get_balance, hf, hl]
      rw [h1, h2, hspent]
      exact ⟨sub_zero _, rfl⟩
    · have hlt : ¬ (today - lb.date ≤ 0) := by
        rcases mem_of_maxByDate hl with ⟨hmem, _⟩
        rcases List.mem_filter.mp hmem with ⟨hmem', hu⟩
        have hu' : lb.user_id = u := by simpa using hu
        have hle : lb.date ≤ today := hP lb hmem' hu'
        have hne : lb.date ≠ today := by
          intro hdt
          have : lb ∈ s.balances.filter (isToday u today) :=
            List.mem_filter.mpr ⟨hmem', by simp [isToday, hu', hdt]⟩
          rw [hemp] at this
          simp at this
        omega
      have h1 : day_balance_fallback s u today =
          (lb.balance + ((today - lb.date : Int) : ℚ) * DAILY_LIMIT -
            ((s.expenses.filter (fun e => e.user_id == u && e.date == today)).map
              (fun e => e.amount)).sum, s) := by
        rw [day_balance_fallback, hf, hl]
      have h2 : get_balance s u today =
          (lb.balance + ((today - lb.date : Int) : ℚ) * DAILY_LIMIT,
            ⟨s.expenses, s.balances ++
              [⟨u, today, lb.balance + ((today - lb.date : Int) : ℚ) * DAILY_LIMIT⟩]⟩) := by
        rw [get_balance, hf, hl]
        simp only []
        rw [if_neg hlt]
      rw [h1, h2, hspent]
      exact ⟨sub_zero _, rfl⟩
  · have h1 : day_balance_fallback s u today = (bt.balance, s) := by
      rw [day_balance_fallback, hf]
    have h2 : get_balance s u today = (bt.balance, s) := by rw [get_balance, hf]
    rw [h1, h2]
    exact ⟨rfl, rfl⟩

/-- Witness for C3 (amended): snapshot (day 5, 300), an expense on day 5,
resolved on day 8: both paths agree and the fallback writes nothing. -/
theorem c3_fallback_amended_witness :
    (day_balance_fallback ⟨[⟨1, 40, 5, some "x"⟩], [⟨1, 5, 300⟩]⟩ 1 8).1
      = (get_balance ⟨[⟨1, 40, 5, some "x"⟩], [⟨1, 5, 300⟩]⟩ 1 8).1 ∧
    (day_balance_fallback ⟨[⟨1, 40, 5, some "x"⟩], [⟨1, 5, 300⟩]⟩ 1 8).2
      = ⟨[⟨1, 40, 5, some "x"⟩], [⟨1, 5, 300⟩]⟩ :=
  c3_fallback_amended ⟨[⟨1, 40, 5, some "x"⟩], [⟨1, 5, 300⟩]⟩ 1 8 (by decide) (by decide)

-- ---------------------------------------------------------------------------
-- C8: the weekly report is a pure read and does not recompute balances
-- ---------------------------------------------------------------------------

/-- C8: For every user, day and store, `get_weekly_stats` reads snapshot rows
directly without invoking the Accrual Engine: a day `d` of the 7-day window
with no materialized `(u, d)` snapshot row is absent from the report's
balance dict (reported as "Баланс не найден"), not recomputed; and the call
performs no store mutation — both tables are returned unchanged. -/
theorem c8_weekly_read_only (s : Store) (u today d : Int)
    (hw1 : today - 6 ≤ d) (hw2 : d ≤ today)
    (hnone : ∀ b ∈ s.balances, ¬(b.user_id = u ∧ b.date = d)) :
    dict_lookup (get_weekly_stats s u today).1.balances d = none ∧
    (get_weekly_stats s u today).2 = s := by
  refine ⟨?_, rfl⟩
  have hb : (get_weekly_stats s u today).1.balances =
      (s.balances.filter (fun b => b.user_id == u && decide (today - 6 ≤ b.date))).map
        (fun b => (b.date, b.balance)) := rfl
  rw [dict_lookup, hb]
  have hfil : ((s.balances.filter
        (fun b => b.user_id == u && decide (today - 6 ≤ b.date))).map
          (fun b => (b.date, b.balance))).filter (fun p => p.1 == d) = [] := by
    rw [List.filter_eq_nil_iff]
    intro x hx hpx
    rcases List.mem_map.mp hx with ⟨b, hbmem, hxe⟩
    rcases List.mem_filter.mp hbmem with ⟨hbs, hbp⟩
    simp only [Bool.and_eq_true, beq_iff_eq] at hbp
    subst hxe
    have hd : b.date = d := by simpa using hpx
    exact hnone b hbs ⟨hbp.1, hd⟩
  rw [hfil]
  rfl

/-- Witness for C8: user 1 has a single snapshot on day 3; on the day-10
report (window 4..10), day 7 carries no snapshot and is reported as
not-found; the store comes back unchanged. -/
theorem c8_weekly_read_only_witness :
    dict_lookup (get_weekly_stats ⟨[], [⟨1, 3, 500⟩]⟩ 1 10).1.balances 7 = none ∧
    (get_weekly_stats ⟨[], [⟨1, 3, 500⟩]⟩ 1 10).2 = ⟨[], [⟨1, 3, 500⟩]⟩ :=
  c8_weekly_read_only ⟨[], [⟨1, 3, 500⟩]⟩ 1 10 7 (by decide) (by decide) (by decide)

-- ---------------------------------------------------------------------------
-- C9: category chosen with no pending amount
-- ---------------------------------------------------------------------------

/-- C9: For every user, when a category is chosen while no pending amount is
recorded for that user, `handle_category` returns with the alert outcome
(`none` in the third component — "Нет ожидающей суммы"), the pending map
unchanged, and the store untouched (no ExpenseRecord appended, no
BalanceSnapshot touched); the handler is total, hence non-fatal. -/
theorem c9_no_pending (pending : List (Int × ℚ)) (s : Store) (u today : Int)
    (category : String)
    (h : pending.find? (fun p => p.1 == u) = none) :
    handle_category pending s u today category = (pending, s, none) := by
  have hp : pop_pending pending u = (none, pending) := by rw [pop_pending, h]
  rw [handle_category, hp]

/-- Witness for C9: user 2 picks a category while only user 1 has a pending
amount: nothing is posted and the store is untouched. -/
theorem c9_no_pending_witness :
    handle_category [(1, 75)] ⟨[], []⟩ 2 0 "Транспорт" = ([(1, 75)], ⟨[], []⟩, none) :=
  c9_no_pending [(1, 75)] ⟨[], []⟩ 2 0 "Транспорт" (by decide)

-- ---------------------------------------------------------------------------
-- C10: the numeric input filter admits negative amounts
-- ---------------------------------------------------------------------------

/-- C10: The program nowhere enforces positivity of expense amounts: the
numeric regex admits negative numbers — `handle_amount` on the message
`"-50"` (user not awaiting a budget adjustment) records `-50` as the user's
pending expense — and for every amount `a < 0`, `add_expense` appends an
ExpenseRecord with that negative amount and sets today's snapshot to
`balance - a`, i.e. it increases the balance by `|a|`. -/
theorem c10_negative_amounts :
    (∀ (s : Store) (u today : Int),
      handle_amount [] [] s u today ("-50".toList)
        = some ([], [(u, (-50 : ℚ))], s, none)) ∧
    (∀ (s : Store) (u today : Int) (a : ℚ) (c : String), a < 0 →
      (∀ b ∈ s.balances, b.user_id = u → b.date ≤ today) →
      (todayRows s u today).length ≤ 1 →
      (add_expense s u today a c).2.expenses = s.expenses ++ [⟨u, a, today, some c⟩] ∧
      todayRows (add_expense s u today a c).2 u today
        = [⟨u, today, (get_balance s u today).1 - a⟩] ∧
      (get_balance s u today).1 < (get_balance s u today).1 - a ∧
      (get_balance s u today).1 - a = (get_balance s u today).1 + |a|) := by
  constructor
  · intro s u today
    have hp0 : parse_amount ("-50".toList)
        = -(((digitsToNat ['5', '0'] : ℕ) : ℚ) + 0) := rfl
    have hd : digitsToNat ['5', '0'] = 50 := rfl
    have hp : parse_amount ("-50".toList) = -50 := by
      rw [hp0, hd]
      norm_num
    have h0 : handle_amount [] [] s u today ("-50".toList)
        = some ([], [(u, parse_amount ("-50".toList))], s, none) := rfl
    rw [h0, hp]
  · intro s u today a c ha hP hU
    obtain ⟨A1, A2, A3, A4, A5, A6⟩ := add_expense_spec s u today a c hP hU
    refine ⟨A2, A3, by linarith, ?_⟩
    rw [abs_of_neg ha]
    ring

/-- Witness for C10: the message `"-50"` is accepted and recorded as pending
for user 3; posting `-50` into an empty store appends the negative record and
raises today's snapshot to `balance + 50`. -/
theorem c10_negative_amounts_witness :
    handle_amount [] [] ⟨[], []⟩ 3 0 ("-50".toList)
      = some ([], [(3, (-50 : ℚ))], ⟨[], []⟩, none) ∧
    ((add_expense ⟨[], []⟩ 1 0 (-50) "x").2.expenses
        = ([] : List Expense) ++ [⟨1, -50, 0, some "x"⟩] ∧
      todayRows (add_expense ⟨[], []⟩ 1 0 (-50) "x").2 1 0
        = [⟨1, 0, (get_balance (⟨[], []⟩ : Store) 1 0).1 - (-50)⟩] ∧
      (get_balance (⟨[], []⟩ : Store) 1 0).1
        < (get_balance (⟨[], []⟩ : Store) 1 0).1 - (-50) ∧
      (get_balance (⟨[], []⟩ : Store) 1 0).1 - (-50)
        = (get_balance (⟨[], []⟩ : Store) 1 0).1 + |(-50 : ℚ)|) :=
  ⟨c10_negative_amounts.1 ⟨[], []⟩ 3 0,
   c10_negative_amounts.2 ⟨[], []⟩ 1 0 (-50) "x" (by decide) (by decide) (by decide)⟩

-- ---------------------------------------------------------------------------
-- Grouping lemmas for the report queries
-- ---------------------------------------------------------------------------

theorem sum_amounts_cons (e : Expense) (t : List Expense) :
    sum_amounts (e :: t) = e.amount + sum_amounts t := by
  simp [sum_amounts]

theorem sum_amounts_filter_split (p : Expense → Bool) (l : List Expense) :
    sum_amounts (l.filter p) + sum_amounts (l.filter (fun e => !(p e))) =
      sum_amounts l := by
  induction l with
  | nil => simp [sum_amounts]
  | cons e t ih =>
    cases h : p e
    · simp only [List.filter_cons, h, Bool.not_false, Bool.false_eq_true, if_false,
        if_true, ite_true, ite_false]
      rw [sum_amounts_cons, sum_amounts_cons]
      linarith
    · simp only [List.filter_cons, h, Bool.not_true, Bool.false_eq_true, if_false,
        if_true, ite_true, ite_false]
      rw [sum_amounts_cons, sum_amounts_cons]
      linarith

theorem sum_map_congr {α : Type} (l : List α) (f g : α → ℚ)
    (h : ∀ x ∈ l, f x = g x) : (l.map f).sum = (l.map g).sum := by
  induction l with
  | nil => rfl
  | cons a t ih =>
    simp only [List.map_cons, List.sum_cons]
    rw [h a (List.mem_cons_self a t), ih (fun x hx => h x (List.mem_cons_of_mem a hx))]

theorem sum_over_keys {κ : Type} [DecidableEq κ] (key : Expense → κ) :
    ∀ (ks : List κ) (l : List Expense), ks.Nodup → (∀ e ∈ l, key e ∈ ks) →
      (ks.map (fun k => sum_amounts (l.filter (fun e => decide (key e = k))))).sum
        = sum_amounts l := by
  intro ks
  induction ks with
  | nil =>
    intro l _ hcov
    have hnil : l = [] := by
      cases l with
      | nil => rfl
      | cons e t => exact absurd (hcov e (List.mem_cons_self e t)) (List.not_mem_nil _)
    rw [hnil]
    rfl
  | cons k ks ih =>
    intro l hnd hcov
    rw [List.map_cons, List.sum_cons]
    have hk : k ∉ ks := (List.nodup_cons.mp hnd).1
    have hnd' : ks.Nodup := (List.nodup_cons.mp hnd).2
    have hcong : ∀ k' ∈ ks,
        sum_amounts (l.filter (fun e => decide (key e = k'))) =
        sum_amounts ((l.filter (fun e => !(decide (key e = k)))).filter
          (fun e => decide (key e = k'))) := by
      intro k' hk'
      have hne : k' ≠ k := by
        rintro rfl
        exact hk hk'
      have hfil : (l.filter (fun e => !(decide (key e = k)))).filter
          (fun e => decide (key e = k')) = l.filter (fun e => decide (key e = k')) := by
        rw [List.filter_filter]
        apply List.filter_congr
        intro e _
        by_cases h : key e = k'
        · simp [h, hne]
        · simp [h]
      rw [hfil]
    have hcov' : ∀ e ∈ l.filter (fun e => !(decide (key e = k))), key e ∈ ks := by
      intro e he
      rcases List.mem_filter.mp he with ⟨hel, hneq⟩
      rcases List.mem_cons.mp (hcov e hel) with h | h
      · exact absurd h (by simpa using hneq)
      · exact h
    rw [sum_map_congr ks _ _ hcong, ih _ hnd' hcov']
    exact sum_amounts_filter_split (fun e => decide (key e = k)) l

theorem sum_group {κ : Type} [DecidableEq κ] (key : Expense → κ) (l : List Expense) :
    (((l.map key).dedup).map
      (fun k => sum_amounts (l.filter (fun e => decide (key e = k))))).sum
      = sum_amounts l := by
  apply sum_over_keys key _ l (List.nodup_dedup _)
  intro e he
  rw [List.mem_dedup]
  exact List.mem_map_of_mem key he

theorem set_key_fresh (m : List (String × ℚ)) (k : String) (v : ℚ)
    (h : ∀ p ∈ m, p.1 ≠ k) : set_key m k v = m ++ [(k, v)] := by
  rw [set_key, if_neg]
  intro hc
  rcases List.any_eq_true.mp hc with ⟨p, hp, hpk⟩
  exact h p hp (by simpa using hpk)

theorem build_dict_sum_aux :
    ∀ (rows acc : List (String × ℚ)),
      (acc.map Prod.fst ++ rows.map Prod.fst).Nodup →
      ((rows.foldl (fun m r => set_key m r.1 r.2) acc).map (fun q => q.2)).sum
        = (acc.map (fun q => q.2)).sum + (rows.map (fun q => q.2)).sum := by
  intro rows
  induction rows with
  | nil =>
    intro acc _
    simp
  | cons r rs ih =>
    intro acc hnd
    rw [List.foldl_cons]
    have hfresh : ∀ p ∈ acc, p.1 ≠ r.1 := by
      intro p hp hpk
      have h1 : r.1 ∈ acc.map Prod.fst := hpk ▸ List.mem_map_of_mem Prod.fst hp
      have hd := (List.nodup_append.mp hnd).2.2
      exact hd h1 (by simp)
    rw [set_key_fresh acc r.1 r.2 hfresh]
    have hnd' : ((acc ++ [(r.1, r.2)]).map Prod.fst ++ rs.map Prod.fst).Nodup := by
      rw [List.map_append, List.append_assoc]
      simpa using hnd
    rw [ih (acc ++ [(r.1, r.2)]) hnd']
    simp only [List.map_append, List.sum_append, List.map_cons, List.map_nil,
      List.sum_cons, List.sum_nil]
    ring

theorem build_dict_sum (rows : List (String × ℚ))
    (h : (rows.map Prod.fst).Nodup) :
    ((build_dict rows).map (fun q => q.2)).sum = (rows.map (fun q => q.2)).sum := by
  have haux := build_dict_sum_aux rows [] (by simpa using h)
  simpa [build_dict] using haux

theorem display_cat_inj_on {cats : List (Option String)}
    (h : ∀ c ∈ cats, GoodCat c) (hnd : cats.Nodup) :
    (cats.map display_cat).Nodup := by
  refine List.Nodup.map_on ?_ hnd
  intro c1 h1 c2 h2 he
  rcases h c1 h1 with ⟨hn1, he1, hb1⟩
  rcases h c2 h2 with ⟨hn2, he2, hb2⟩
  cases c1 with
  | none => exact absurd rfl hn1
  | some s1 =>
    cases c2 with
    | none => exact absurd rfl hn2
    | some s2 =>
      have hs1 : s1 ≠ "" := fun hc => he1 (by rw [hc])
      have hs2 : s2 ≠ "" := fun hc => he2 (by rw [hc])
      simp only [display_cat] at he
      rw [if_neg hs1, if_neg hs2] at he
      rw [he]

theorem day_table_sum (l : List Expense) (d : Int)
    (hcat : ∀ e ∈ l, GoodCat e.category) :
    ((day_table l d).map (fun q => q.2)).sum
      = sum_amounts (l.filter (fun e => decide (e.date = d))) := by
  rw [day_table]
  have hgood : ∀ c ∈ ((l.filter (fun e => decide (e.date = d))).map
      (fun e => e.category)).dedup, GoodCat c := by
    intro c hc
    rw [List.mem_dedup] at hc
    rcases List.mem_map.mp hc with ⟨e, he, hce⟩
    rcases List.mem_filter.mp he with ⟨hel, _⟩
    rw [← hce]
    exact hcat e hel
  have hkeys : ((((l.filter (fun e => decide (e.date = d))).map
        (fun e => e.category)).dedup.map
      (fun c => (display_cat c,
        sum_amounts ((l.filter (fun e => decide (e.date = d))).filter
          (fun e => decide (e.category = c)))))).map Prod.fst).Nodup := by
    rw [List.map_map]
    exact display_cat_inj_on hgood (List.nodup_dedup _)
  rw [build_dict_sum _ hkeys, List.map_map]
  exact sum_group (fun e => e.category) (l.filter (fun e => decide (e.date = d)))

-- ---------------------------------------------------------------------------
-- C4: weekly grand total vs per-day period totals
-- ---------------------------------------------------------------------------

/-- C4 (counterexample): the weekly grand total does NOT equal the sum of the
seven per-day `get_stats` totals, because `get_stats` for the `day` period
filters `date >= today` (not `date == today`): a single expense of 1 on day
10 is counted by the day query of every one of the seven window days 4..10,
so the right-hand side is 7 while the weekly grand total is 1. -/
theorem c4_counterexample :
    ¬ ((get_weekly_stats ⟨[⟨1, 1, 10, some "a"⟩], []⟩ 1 10).1.total_sum
        = ((List.range 7).map (fun i =>
            ((get_stats ⟨[⟨1, 1, 10, some "a"⟩], []⟩ 1 (4 + (i : Int)) "day").map
              (fun p => p.2)).sum)).sum) := by
  intro h
  have hL : (get_weekly_stats ⟨[⟨1, 1, 10, some "a"⟩], []⟩ 1 10).1.total_sum
      = (1 : ℚ) + 0 + 0 + 0 := rfl
  have hR : ((List.range 7).map (fun i =>
        ((get_stats ⟨[⟨1, 1, 10, some "a"⟩], []⟩ 1 (4 + (i : Int)) "day").map
          (fun p => p.2)).sum)).sum
      = ((1 : ℚ) + 0 + 0) + ((1 + 0 + 0) + ((1 + 0 + 0) + ((1 + 0 + 0) +
          ((1 + 0 + 0) + ((1 + 0 + 0) + ((1 + 0 + 0) + 0)))))) := rfl
  rw [hL, hR] at h
  norm_num at h

/-- C4 (amended): because the source's `day` filter is `date >= today`, the
weekly grand total equals the summed category totals of a SINGLE day-period
query — the one evaluated with the window start `today - 6` as "today" —
rather than the sum over all seven window days. Stated for every store whose
in-window expenses of the user carry a category that the weekly display
mapping keeps distinct (non-NULL, non-empty, not the fallback label), which
holds for every category the bot itself writes. -/
theorem c4_amended (s : Store) (u today : Int)
    (hcat : ∀ e ∈ s.expenses, e.user_id = u → today - 6 ≤ e.date →
      GoodCat e.category) :
    (get_weekly_stats s u today).1.total_sum
      = ((get_stats s u (today - 6) "day").map (fun p => p.2)).sum := by
  have hR : get_stats s u (today - 6) "day" = stats_query s u (today - 6) := by
    rw [get_stats, if_pos rfl]
  rw [hR]
  have hgood : ∀ e ∈ s.expenses.filter
      (fun e => e.user_id == u && decide (today - 6 ≤ e.date)), GoodCat e.category := by
    intro e he
    rcases List.mem_filter.mp he with ⟨hel, hep⟩
    simp only [Bool.and_eq_true, beq_iff_eq, decide_eq_true_eq] at hep
    exact hcat e hel hep.1 hep.2
  have hL : (get_weekly_stats s u today).1.total_sum =
      ((((s.expenses.filter (fun e => e.user_id == u && decide (today - 6 ≤ e.date))).map
          (fun e => e.date)).dedup).map
        (fun d => ((day_table (s.expenses.filter
            (fun e => e.user_id == u && decide (today - 6 ≤ e.date))) d).map
          (fun q => q.2)).sum)).sum := by
    show ((((s.expenses.filter (fun e => e.user_id == u && decide (today - 6 ≤ e.date))).map
          (fun e => e.date)).dedup.map (fun d => (d, day_table (s.expenses.filter
            (fun e => e.user_id == u && decide (today - 6 ≤ e.date))) d))).map
        (fun p => (p.2.map (fun q => q.2)).sum)).sum = _
    rw [List.map_map]
    rfl
  rw [hL]
  have hday : ∀ d ∈ ((s.expenses.filter
      (fun e => e.user_id == u && decide (today - 6 ≤ e.date))).map (fun e => e.date)).dedup,
      ((day_table (s.expenses.filter
          (fun e => e.user_id == u && decide (today - 6 ≤ e.date))) d).map
        (fun q => q.2)).sum
        = sum_amounts ((s.expenses.filter
            (fun e => e.user_id == u && decide (today - 6 ≤ e.date))).filter
          (fun e => decide (e.date = d))) := by
    intro d _
    exact day_table_sum _ d hgood
  rw [sum_map_congr _ _ _ hday]
  have hq : ((stats_query s u (today - 6)).map (fun p => p.2)).sum =
      sum_amounts (s.expenses.filter
        (fun e => e.user_id == u && decide (today - 6 ≤ e.date))) := by
    show ((((s.expenses.filter (fun e => e.user_id == u && decide (today - 6 ≤ e.date))).map
        (fun e => e.category)).dedup.map (fun c => (c, sum_amounts ((s.expenses.filter
          (fun e => e.user_id == u && decide (today - 6 ≤ e.date))).filter
            (fun e => decide (e.category = c)))))).map (fun p => p.2)).sum = _
    rw [List.map_map]
    exact sum_group (fun e => e.category) _
  rw [hq]
  exact sum_group (fun e => e.date) _

/-- Witness for C4 (amended): one in-window expense (day 9, category from the
bot's keyboard); the weekly grand total equals the day-period total taken at
the window start, day 4. -/
theorem c4_amended_witness :
    (get_weekly_stats ⟨[⟨1, 5, 9, some "Продукты"⟩], []⟩ 1 10).1.total_sum
      = ((get_stats ⟨[⟨1, 5, 9, some "Продукты"⟩], []⟩ 1 (10 - 6) "day").map
          (fun p => p.2)).sum :=
  c4_amended ⟨[⟨1, 5, 9, some "Продукты"⟩], []⟩ 1 10 (by decide)
